import Mathlib

/-!
Verification of the Quizzards quiz widget (src/scripts/main.js) against its
specification. The controller logic (class QuizzardsApp), the question bank
(class QuestionsList) and the screen templates of the view (class
QuizzardsView) are embedded shallowly below; DOM plumbing is abstracted into
a `Render` command type, exactly as the spec treats the Presentation Surface.
-/

/-- Models a question answer pair (class QuestionAnswer, main.js lines 10-20):
fields `question` and `answer`. -/
structure QuestionAnswer where
  question : String
  answer : String
deriving DecidableEq, Repr

/-- The question bank is an ordered sequence of QuestionAnswer
(class QuestionsList extends Array, main.js lines 26-42). -/
abbrev QuestionsList := List QuestionAnswer

/-- The QuestionsList constructor (main.js lines 31-41): each two-string pair
argument is turned into a QuestionAnswer, in order. (The JS filter that drops
non-array arguments is vacuous here: every element of the input list is a
pair.) -/
def QuestionsList.ofPairs (args : List (String × String)) : QuestionsList :=
  args.map fun p => QuestionAnswer.mk p.1 p.2

/-- JS array subscript access `questions[i]` on a QuestionsList for an integer
index: the element when `0 ≤ i < length`, and `undefined` (here: `none`) for
any index outside `[0, length)`, negative indices included. -/
def QuestionsList.get (qs : QuestionsList) (i : Int) : Option QuestionAnswer :=
  if 0 ≤ i then qs[i.toNat]? else none

/-- The mutable run state owned by the controller (main.js lines 161-164):
`current` question index and `score`. Both start at 0 and are only ever
assigned non-negative integers, so Nat is faithful. -/
structure RunState where
  current : Nat
  score : Nat
deriving DecidableEq, Repr

/-- The four render commands of the view (QuizzardsView, main.js lines 71-123):
printFirstPage, printQuestion, printResult, printScore. Issuing one replaces
the whole visible surface (printTemplate overwrites innerHTML). -/
inductive Render where
  | firstPage (amount : Nat)
  | question (q : String)
  | result (msg : String)
  | score (s : Nat)
deriving DecidableEq, Repr

/-- Outcome of one event-handler invocation: the run state after the handler
returns (or after the statement that threw, since JS keeps mutations made
before a throw), the render commands issued, and whether the handler threw an
uncaught exception. -/
structure StepResult where
  state : RunState
  renders : List Render
  crashed : Bool
deriving DecidableEq, Repr

/-- ECMAScript `String.prototype.toLowerCase` restricted to the ASCII strings
this program uses: lower-case every character. -/
def jsToLowerCase (s : String) : String :=
  String.mk (s.data.map Char.toLower)

/-- ECMAScript `String.prototype.trim`: strip leading and trailing whitespace.
(JS trims the WhiteSpace/LineTerminator code points; for the ASCII inputs of
this program that set coincides with `Char.isWhitespace`.) -/
def jsTrim (s : String) : String :=
  String.mk (((s.data.dropWhile Char.isWhitespace).reverse.dropWhile
    Char.isWhitespace).reverse)

/-- Message printed by the correct-answer branch (main.js line 207). -/
def correctMessage : String := "Correct! You might not be as dumb as I thought you were."

/-- Placeholder pair used only as the default argument of `List.getD` in
statements about in-range accesses (never actually returned there). -/
def defaultQA : QuestionAnswer := QuestionAnswer.mk ("") ("")

namespace QuizzardsApp

/-- startGame (main.js lines 183-189): reset `current` and `score` to 0, then
render the question at index 0. On an empty bank `this.questions[0]` is
`undefined`, so reading `.question` throws a TypeError after the reset and
before any render. -/
def startGame (questions : QuestionsList) (state : RunState) : StepResult :=
  let state' : RunState := RunState.mk 0 0
  match questions[0]? with
  | some qa => StepResult.mk state' [Render.question qa.question] false
  | none => StepResult.mk state' [] true

/-- checkAnswer (main.js lines 195-213) on the submitted raw answer text.
Branches, in source order:
1. `current >= questions.length - 1`: print the score screen, state untouched.
   (In JS an empty bank makes the bound -1 and the guard still holds for
   `current = 0`; Nat subtraction gives bound 0 and the same outcome.)
2. else if trimmed submission and stored answer agree case-insensitively:
   increment score, print the correct-result screen.
3. else: main.js line 210 reads `} else (userAnswer.value.length >= 1) {`,
   which is not a valid guard as written, and even under the minimal repair
   to `else if` it dereferences `.value` of a string (undefined) and throws a
   TypeError before `printResult` runs. The branch is therefore modelled as a
   crash with no render and no state change. (The empty-input branch on lines
   208-209 is commented out in the source.)
The `none` arm of the bank access is unreachable when branch 1 fails, and is
modelled as the TypeError that JS would raise there. -/
def checkAnswer (questions : QuestionsList) (state : RunState) (raw : String) : StepResult :=
  let userAnswer := jsTrim raw
  if state.current ≥ questions.length - 1 then
    StepResult.mk state [Render.score state.score] false
  else
    match questions[state.current]? with
    | some qa =>
      if jsToLowerCase userAnswer = jsToLowerCase qa.answer then
        StepResult.mk (RunState.mk state.current (state.score + 1))
          [Render.result correctMessage] false
      else
        StepResult.mk state [] true
    | none => StepResult.mk state [] true

/-- nextQuestion (main.js lines 218-221): increment `current`, then render the
question at the new index. Past the end, `questions[current]` is `undefined`
and reading `.question` throws after the increment, before any render. -/
def nextQuestion (questions : QuestionsList) (state : RunState) : StepResult :=
  let current' := state.current + 1
  match questions[current']? with
  | some qa => StepResult.mk (RunState.mk current' state.score) [Render.question qa.question] false
  | none => StepResult.mk (RunState.mk current' state.score) [] true

end QuizzardsApp

/-- The static question list the app is constructed with (main.js lines 228-235). -/
def questions : QuestionsList := QuestionsList.ofPairs
  [ ("What is the capital of Syria?", "Damascus")
  , ("Can fish fly?", "yes")
  , ("Can chickens swim?", "no")
  , ("Which city is the biggest in Germany?", "Berlin")
  , ("Is Pablo Escobar still alive?", "No")
  , ("Are JavaScript and Java the same programming language?", "No") ]

/-- The three classes of user events the controller subscribes to
(main.js lines 175-177): the #play button, the answer form's #check-answer
submit (carrying the raw text of the answer field), and the #next button. -/
inductive Event where
  | play
  | submit (raw : String)
  | next
deriving DecidableEq, Repr

/-- A configuration of the running app: the controller's state plus the screen
currently in the DOM (the last innerHTML write). `delegateListener`
(main.js lines 131-141) only invokes a handler when the event's target is
present in the current DOM, so the screen determines which events can fire. -/
structure Config where
  state : RunState
  screen : Render
deriving DecidableEq, Repr

/-- Fold a handler invocation into a configuration: the state becomes the
handler's final state, and the screen becomes the last render issued (none on
a crash, in which case the DOM is unchanged). -/
def applyResult (c : Config) (r : StepResult) : Config :=
  match r.renders.getLast? with
  | some rend => Config.mk r.state rend
  | none => Config.mk r.state c.screen

/-- Which template holds the trigger element of each event: #play exists on
the first page and the score screen, #check-answer on a question screen,
#next on a result screen (main.js lines 71-123). An event whose trigger is
not in the DOM leaves the configuration unchanged (delegateListener filters
it out). -/
def step (qs : QuestionsList) (c : Config) (e : Event) : Config :=
  match e with
  | Event.play =>
    match c.screen with
    | Render.firstPage _ => applyResult c (QuizzardsApp.startGame qs c.state)
    | Render.score _ => applyResult c (QuizzardsApp.startGame qs c.state)
    | _ => c
  | Event.submit raw =>
    match c.screen with
    | Render.question _ => applyResult c (QuizzardsApp.checkAnswer qs c.state raw)
    | _ => c
  | Event.next =>
    match c.screen with
    | Render.result _ => applyResult c (QuizzardsApp.nextQuestion qs c.state)
    | _ => c

/-- The configuration right after construction and init() (main.js lines
158-178, 247-250): state {current: 0, score: 0}, first page rendered. -/
def initConfig (qs : QuestionsList) : Config :=
  Config.mk (RunState.mk 0 0) (Render.firstPage qs.length)

/-- The configuration reached from startup by a sequence of user events. -/
def run (qs : QuestionsList) (evs : List Event) : Config :=
  evs.foldl (step qs) (initConfig qs)

/-- The inductive invariant of the reachable configurations, by screen:
on the first page the state is still the initial one; on a question screen
the score equals the current index (each passed question was graded exactly
once) and the index is in range; on a result screen the question at the
current index has just been scored and at least two questions remain at or
after it; on the score screen the current index is the last one. -/
def ConfigInv (qs : QuestionsList) (c : Config) : Prop :=
  match c.screen with
  | Render.firstPage _ => c.state.current = 0 ∧ c.state.score = 0
  | Render.question _ => c.state.score = c.state.current ∧ c.state.current < qs.length
  | Render.result _ => c.state.score = c.state.current + 1 ∧ c.state.current + 2 ≤ qs.length
  | Render.score _ => c.state.score = c.state.current ∧ c.state.current + 1 = qs.length

/-- One step of the screen-gated event dispatch preserves the configuration
invariant, whatever the question bank. -/
theorem step_preserves_inv (qs : QuestionsList) (c : Config) (e : Event)
    (h : ConfigInv qs c) : ConfigInv qs (step qs c e) := by
  obtain ⟨⟨cur, sc⟩, scr⟩ := c
  cases e with
  | play =>
    cases scr with
    | firstPage n =>
      simp only [step, QuizzardsApp.startGame]
      cases hq : qs[0]? with
      | some qa =>
        have hlen : ¬ qs.length ≤ 0 := fun hc => by
          rw [List.getElem?_eq_none hc] at hq
          exact Option.noConfusion hq
        exact show (0 : Nat) = 0 ∧ 0 < qs.length from ⟨rfl, by omega⟩
      | none => exact show (0 : Nat) = 0 ∧ (0 : Nat) = 0 from ⟨rfl, rfl⟩
    | question q => exact h
    | result msg => exact h
    | score s =>
      obtain ⟨h1, h2⟩ := h
      have hb : cur + 1 = qs.length := h2
      simp only [step, QuizzardsApp.startGame]
      cases hq : qs[0]? with
      | some qa =>
        exact show (0 : Nat) = 0 ∧ 0 < qs.length from ⟨rfl, by omega⟩
      | none =>
        rw [List.getElem?_eq_none_iff] at hq
        omega
  | submit raw =>
    cases scr with
    | firstPage n => exact h
    | question q =>
      obtain ⟨h1, h2⟩ := h
      have ha : sc = cur := h1
      have hb : cur < qs.length := h2
      simp only [step, QuizzardsApp.checkAnswer]
      by_cases hge : cur ≥ qs.length - 1
      · rw [if_pos hge]
        exact show sc = cur ∧ cur + 1 = qs.length from ⟨ha, by omega⟩
      · rw [if_neg hge]
        cases hq : qs[cur]? with
        | some qa =>
          dsimp only
          by_cases hstr : jsToLowerCase (jsTrim raw) = jsToLowerCase qa.answer
          · rw [if_pos hstr]
            exact show sc + 1 = cur + 1 ∧ cur + 2 ≤ qs.length from ⟨by omega, by omega⟩
          · rw [if_neg hstr]
            exact show sc = cur ∧ cur < qs.length from ⟨ha, hb⟩
        | none =>
          rw [List.getElem?_eq_none_iff] at hq
          omega
    | result msg => exact h
    | score s => exact h
  | next =>
    cases scr with
    | firstPage n => exact h
    | question q => exact h
    | result msg =>
      obtain ⟨h1, h2⟩ := h
      have ha : sc = cur + 1 := h1
      have hb : cur + 2 ≤ qs.length := h2
      simp only [step, QuizzardsApp.nextQuestion]
      cases hq : qs[cur + 1]? with
      | some qa =>
        exact show sc = cur + 1 ∧ cur + 1 < qs.length from ⟨ha, by omega⟩
      | none =>
        rw [List.getElem?_eq_none_iff] at hq
        omega
    | score s => exact h

/-- Folding any event list over `step` preserves the invariant. -/
theorem foldl_step_inv (qs : QuestionsList) :
    ∀ (evs : List Event) (c : Config), ConfigInv qs c →
      ConfigInv qs (evs.foldl (step qs) c)
  | [], _, h => h
  | e :: evs, c, h => foldl_step_inv qs evs (step qs c e) (step_preserves_inv qs c e h)

/-- The invariant holds at startup and therefore in every reachable
configuration. -/
theorem run_inv (qs : QuestionsList) (evs : List Event) : ConfigInv qs (run qs evs) :=
  foldl_step_inv qs evs (initConfig qs) ⟨rfl, rfl⟩

/-- A correct submission at a non-final index is graded normally: score up by
one, correct-result screen rendered, index unchanged. (General positive
behavior of checkAnswer, shared background for the last-question defect.) -/
theorem checkAnswer_match_below_last (qs : QuestionsList) (s : RunState) (raw : String)
    (qa : QuestionAnswer) (hlt : ¬ s.current ≥ qs.length - 1)
    (hq : qs[s.current]? = some qa)
    (hm : jsToLowerCase (jsTrim raw) = jsToLowerCase qa.answer) :
    QuizzardsApp.checkAnswer qs s raw =
      StepResult.mk (RunState.mk s.current (s.score + 1)) [Render.result correctMessage] false := by
  rw [QuizzardsApp.checkAnswer]
  rw [if_neg hlt, hq]
  dsimp only
  rw [if_pos hm]

/-- C1: on the last question (current = length - 1 = 5 of the 6-entry bank),
a submission is not graded: checkAnswer renders the score screen immediately
and leaves the state untouched, instead of rendering a result screen and
reaching Finished only on the next advance. -/
theorem checkAnswer_last_submit_skips_grading :
    QuizzardsApp.checkAnswer questions (RunState.mk 5 2) ("yes") =
      StepResult.mk (RunState.mk 5 2) [Render.score 2] false := by decide

/-- C3: at the last index the submission " no " trims and case-folds to the
stored answer "No", yet checkAnswer does not increment the score and renders
the score screen rather than ShowingResult(5, true). -/
theorem checkAnswer_last_matching_submit_not_scored :
    jsToLowerCase (jsTrim (" no ")) = jsToLowerCase ("No") ∧
      QuizzardsApp.checkAnswer questions (RunState.mk 5 0) (" no ") =
        StepResult.mk (RunState.mk 5 0) [Render.score 0] false := by decide

/-- C4: advancing from the last index (i = 5, i + 1 = length = 6) increments
current to 6 and then throws reading questions[6].question: no Finished state,
no score render. (The i + 1 < length half of the claim does hold in the code.) -/
theorem nextQuestion_past_end_crashes :
    QuizzardsApp.nextQuestion questions (RunState.mk 5 3) =
      StepResult.mk (RunState.mk 6 3) [] true := by decide

/-- C6: submitting the empty string from question 0 falls into the malformed
wrong-answer branch (main.js line 210) and crashes with no render and no
grading, instead of being treated as an ordinary incorrect answer. -/
theorem checkAnswer_empty_submission_crashes :
    QuizzardsApp.checkAnswer questions (RunState.mk 0 0) ("") =
      StepResult.mk (RunState.mk 0 0) [] true := by decide

/-- C5 counterexample: the transition on a wrong non-empty submission issues
zero render commands (the malformed branch throws before printResult), not
exactly one. -/
theorem checkAnswer_wrong_answer_renders_nothing :
    ¬ (QuizzardsApp.checkAnswer questions (RunState.mk 0 0) ("Aleppo")).renders.length = 1 := by
  decide

/-- C5 amended: every transition that returns without throwing issues exactly
one render command; the transitions that throw (the malformed wrong-answer
branch and out-of-range bank accesses) issue none. -/
theorem noncrashing_transition_renders_once (qs : QuestionsList) (s : RunState) (raw : String) :
    ((QuizzardsApp.startGame qs s).crashed = false →
      (QuizzardsApp.startGame qs s).renders.length = 1) ∧
    ((QuizzardsApp.checkAnswer qs s raw).crashed = false →
      (QuizzardsApp.checkAnswer qs s raw).renders.length = 1) ∧
    ((QuizzardsApp.nextQuestion qs s).crashed = false →
      (QuizzardsApp.nextQuestion qs s).renders.length = 1) := by
  refine ⟨?_, ?_, ?_⟩
  · rw [QuizzardsApp.startGame]
    cases qs[0]? with
    | some qa => intro _; rfl
    | none => intro hc; exact Bool.noConfusion hc
  · rw [QuizzardsApp.checkAnswer]
    by_cases hge : s.current ≥ qs.length - 1
    · rw [if_pos hge]; intro _; rfl
    · rw [if_neg hge]
      cases qs[s.current]? with
      | some qa =>
        dsimp only
        by_cases hm : jsToLowerCase (jsTrim raw) = jsToLowerCase qa.answer
        · rw [if_pos hm]; intro _; rfl
        · rw [if_neg hm]; intro hc; exact Bool.noConfusion hc
      | none => intro hc; exact Bool.noConfusion hc
  · rw [QuizzardsApp.nextQuestion]
    cases qs[s.current + 1]? with
    | some qa => intro _; rfl
    | none => intro hc; exact Bool.noConfusion hc

/-- C5 witness: the start transition on the six-question bank does not throw
and issues exactly one render. -/
theorem noncrashing_transition_renders_once_witness :
    (QuizzardsApp.startGame questions (RunState.mk 0 0)).renders.length = 1 :=
  (noncrashing_transition_renders_once questions (RunState.mk 0 0) ("x")).1 (by decide)

/-- C2 counterexample: after Start and one correct submission (a reachable
configuration), score = 1 exceeds currentIndex = 0, violating
score ≤ currentIndex. -/
theorem score_exceeds_current_after_correct_submit :
    ¬ ((run questions [Event.play, Event.submit (" damascus  ")]).state.score ≤
        (run questions [Event.play, Event.submit (" damascus  ")]).state.current) := by
  decide

/-- C2 amended: in every configuration reachable through the screen-gated
event dispatch, 0 ≤ score ≤ currentIndex + 1 and currentIndex ≤ length hold
(score can exceed currentIndex by one on a result screen, where the graded
question's index has not yet been advanced past). -/
theorem reachable_state_bounds (qs : QuestionsList) (evs : List Event) :
    (run qs evs).state.score ≤ (run qs evs).state.current + 1 ∧
      (run qs evs).state.current ≤ qs.length := by
  have h := run_inv qs evs
  rcases hc : run qs evs with ⟨⟨cur, sc⟩, scr⟩
  rw [hc] at h
  cases scr with
  | firstPage n =>
    have ha : cur = 0 := h.1
    have hb : sc = 0 := h.2
    exact show sc ≤ cur + 1 ∧ cur ≤ qs.length from ⟨by omega, by omega⟩
  | question q =>
    have ha : sc = cur := h.1
    have hb : cur < qs.length := h.2
    exact show sc ≤ cur + 1 ∧ cur ≤ qs.length from ⟨by omega, by omega⟩
  | result msg =>
    have ha : sc = cur + 1 := h.1
    have hb : cur + 2 ≤ qs.length := h.2
    exact show sc ≤ cur + 1 ∧ cur ≤ qs.length from ⟨by omega, by omega⟩
  | score s =>
    have ha : sc = cur := h.1
    have hb : cur + 1 = qs.length := h.2
    exact show sc ≤ cur + 1 ∧ cur ≤ qs.length from ⟨by omega, by omega⟩

/-- C7: starting on an empty bank fails (the undefined question access throws)
before any render command is issued: no screen is rendered, in particular no
undefined question. -/
theorem startGame_empty_bank_fails_before_render (qs : QuestionsList) (s : RunState)
    (h : qs.length = 0) :
    (QuizzardsApp.startGame qs s).renders = [] ∧
      (QuizzardsApp.startGame qs s).crashed = true := by
  rw [List.length_eq_zero] at h
  subst h
  exact ⟨rfl, rfl⟩

/-- C7 witness: the empty bank at a concrete prior state. -/
theorem startGame_empty_bank_fails_before_render_witness :
    (QuizzardsApp.startGame [] (RunState.mk 3 1)).renders = [] ∧
      (QuizzardsApp.startGame [] (RunState.mk 3 1)).crashed = true :=
  startGame_empty_bank_fails_before_render [] (RunState.mk 3 1) rfl

/-- C8: from any prior state (a finished run included), Start resets current
and score to 0 and renders the question at index 0. -/
theorem startGame_resets_and_renders_first (qs : QuestionsList) (s : RunState)
    (qa : QuestionAnswer) (h : qs[0]? = some qa) :
    QuizzardsApp.startGame qs s =
      StepResult.mk (RunState.mk 0 0) [Render.question qa.question] false := by
  rw [QuizzardsApp.startGame, h]

/-- C8 witness: restarting from the post-run state (current = 5, score = 5)
of the six-question bank resets to {0, 0} and renders question 0. -/
theorem startGame_resets_and_renders_first_witness :
    QuizzardsApp.startGame questions (RunState.mk 5 5) =
      StepResult.mk (RunState.mk 0 0)
        [Render.question ("What is the capital of Syria?")] false :=
  startGame_resets_and_renders_first questions (RunState.mk 5 5)
    (QuestionAnswer.mk ("What is the capital of Syria?") ("Damascus")) (by decide)

/-- C9: bank subscript access returns the stored pair for every index in
[0, length) and produces no pair (undefined) for every index outside it,
negative indices included. -/
theorem questionsList_get_spec (qs : QuestionsList) (i : Int) :
    (0 ≤ i → i < qs.length →
      QuestionsList.get qs i = some (qs.getD i.toNat defaultQA)) ∧
    ((i < 0 ∨ (qs.length : Int) ≤ i) → QuestionsList.get qs i = none) := by
  constructor
  · intro h0 h1
    have hlt : i.toNat < qs.length := by omega
    rw [QuestionsList.get, if_pos h0, List.getD_eq_getElem?_getD,
      List.getElem?_eq_getElem hlt]
    rfl
  · intro h
    cases h with
    | inl hneg => rw [QuestionsList.get, if_neg (by omega)]
    | inr hge =>
      rw [QuestionsList.get, if_pos (by omega), List.getElem?_eq_none (by omega)]

/-- C9 witness: index 2 of the six-question bank is returned; index -1 fails. -/
theorem questionsList_get_spec_witness :
    QuestionsList.get questions 2 =
        some (questions.getD ((2 : Int).toNat) defaultQA) ∧
      QuestionsList.get questions (-1) = none :=
  ⟨(questionsList_get_spec questions 2).1 (by decide) (by decide),
    (questionsList_get_spec questions (-1)).2 (Or.inl (by decide))⟩

/-- C10: checkAnswer never moves the current index, whatever the state and
submission; nextQuestion is the only transition that increments it (by one,
even when it then throws past the end, since the increment precedes the
access); startGame is the only one that resets it to 0. -/
theorem only_advance_moves_current (qs : QuestionsList) (s : RunState) (raw : String) :
    (QuizzardsApp.checkAnswer qs s raw).state.current = s.current ∧
      (QuizzardsApp.nextQuestion qs s).state.current = s.current + 1 ∧
      (QuizzardsApp.startGame qs s).state.current = 0 := by
  refine ⟨?_, ?_, ?_⟩
  · rw [QuizzardsApp.checkAnswer]
    by_cases hge : s.current ≥ qs.length - 1
    · rw [if_pos hge]
    · rw [if_neg hge]
      cases qs[s.current]? with
      | some qa =>
        dsimp only
        by_cases hm : jsToLowerCase (jsTrim raw) = jsToLowerCase qa.answer
        · rw [if_pos hm]
        · rw [if_neg hm]
      | none => rfl
  · rw [QuizzardsApp.nextQuestion]
    cases qs[s.current + 1]? with
    | some qa => rfl
    | none => rfl
  · rw [QuizzardsApp.startGame]
    cases qs[0]? with
    | some qa => rfl
    | none => rfl
